import Mathlib

/-!
Verification of the experience-management core of the unity-ml-penguins
repository: the demonstration decoder and trajectory assembler
(mlagents/trainers/demo_loader.py) and the SAC update scheduler
(mlagents/trainers/sac/trainer.py), shallowly embedded in Lean.

Scalar observation, reward and action values are opaque to every algorithm
modelled here (they are only copied around, or multiplied by zero to build a
zero vector), so they are embedded as integers.
-/

namespace MLPenguins

/-- VObs models one visual observation (an opaque tensor, flattened). -/
abbrev VObs := List Int

/-- AgentInfo models the per-step data carried by an AgentInfoProto after
decoding: done flag, scalar reward, observations already split into visual
channels and one combined vector-observation channel (the split performed by
SplitObservations.from_observations), and the max-step flag. -/
structure AgentInfo where
  done : Bool
  reward : Int
  visualObs : List VObs
  vectorObs : List Int
  maxStep : Bool
deriving DecidableEq, Inhabited, Repr

/-- Pair models one AgentInfoActionPairProto: the agent info of a step and
the vector of actions taken at that step. -/
structure Pair where
  agentInfo : AgentInfo
  vectorActions : List Int
deriving DecidableEq, Inhabited, Repr

/-- Transition models one raw experience appended by make_demo_buffer: one
append to each field of demo_raw_buffer for one index idx. -/
structure Transition where
  done : Bool
  reward : Int
  visualObs : List VObs
  vectorObs : List Int
  actions : List Int
  prevAction : List Int
deriving DecidableEq, Inhabited, Repr

/-- mkTransition builds the transition appended by the body of the loop in
make_demo_buffer at index idx: done and reward come from the next pair
(index idx + 1), observations and actions from the current pair (index idx),
and prev action is the action of the pair before (zeroed when idx = 0,
mirroring vector_actions * 0). -/
def mkTransition (prev? : Option Pair) (curr next : Pair) : Transition :=
  { done := next.agentInfo.done
    reward := next.agentInfo.reward
    visualObs := curr.agentInfo.visualObs
    vectorObs := curr.agentInfo.vectorObs
    actions := curr.vectorActions
    prevAction :=
      match prev? with
      | none => curr.vectorActions.map (fun _ => 0)
      | some p => p.vectorActions }

/-- demoLoop generates, in order, the transitions built by the loop of
make_demo_buffer: the loop runs for idx from 0 while idx ≤ N - 2 (the body
breaks once idx > len(pair_infos) - 2), so it consumes adjacent pairs. The
first argument tracks the pair at idx - 1, absent at the start. -/
def demoLoop : Option Pair → List Pair → List Transition
  | _, [] => []
  | _, [_] => []
  | prev?, curr :: next :: rest =>
      mkTransition prev? curr next :: demoLoop (some curr) (next :: rest)

/-- demoTransitions lists every raw transition accumulated by
make_demo_buffer over the whole input, across episode boundaries. -/
def demoTransitions (pairs : List Pair) : List Transition :=
  demoLoop none pairs

/-- chunksOfFuel splits a list into consecutive chunks of size L (the
final chunk may be shorter), spending one unit of fuel per chunk; with
L ≥ 1, fuel equal to the list length is always enough. With L = 0 the
whole list is one chunk; an empty list yields no chunks. -/
def chunksOfFuel (L : Nat) : Nat → List Transition → List (List Transition)
  | _, [] => []
  | 0, ts => [ts]
  | fuel + 1, t :: ts =>
      if L = 0 then [t :: ts]
      else (t :: ts).take L :: chunksOfFuel L fuel ((t :: ts).drop L)

/-- chunksOf splits a list into consecutive chunks of size L (the final
chunk may be shorter). -/
def chunksOf (L : Nat) (ts : List Transition) : List (List Transition) :=
  chunksOfFuel L ts.length ts

/-- padTransition is the padding element derived from the last real
transition of a short chunk: numeric fields are zero-padded while the
boolean done field repeats the last value. -/
def padTransition (t : Transition) : Transition :=
  { done := t.done
    reward := 0
    visualObs := t.visualObs.map (fun v => v.map (fun _ => 0))
    vectorObs := t.vectorObs.map (fun _ => 0)
    actions := t.actions.map (fun _ => 0)
    prevAction := t.prevAction.map (fun _ => 0) }

/-- Modelled from the spec: AgentBuffer.resequence_and_append (buffer.py is
not among the given sources). Per the spec it splits the accumulated steps
into consecutive chunks of training_length, pads a trailing short chunk up
to that length (numeric fields zero-padded, non-numeric fields repeating
the last value), and appends the resulting fixed-length chunks as sequence
units to the target buffer. -/
def resequence (L : Nat) (ts : List Transition) : List (List Transition) :=
  (chunksOf L ts).map (fun c =>
    match c.getLast? with
    | none => c
    | some t => c ++ List.replicate (L - c.length) (padTransition t))

/-- demoBufferLoop is the main loop of make_demo_buffer: it accumulates raw
transitions, and whenever the next step is terminal it resequences the raw
accumulator into the processed buffer and resets the accumulator
(reset_agent). It returns the processed sequences emitted inside the loop
together with the raw accumulator left when the loop ends. -/
def demoBufferLoop (L : Nat) :
    Option Pair → List Transition → List Pair →
      List (List Transition) × List Transition
  | _, raw, [] => ([], raw)
  | _, raw, [_] => ([], raw)
  | prev?, raw, curr :: next :: rest =>
      let t := mkTransition prev? curr next
      if next.agentInfo.done then
        let r := demoBufferLoop L (some curr) [] (next :: rest)
        (resequence L (raw ++ [t]) ++ r.1, r.2)
      else
        demoBufferLoop L (some curr) (raw ++ [t]) (next :: rest)

/-- make_demo_buffer models the function of the same name in
demo_loader.py: run the pairing loop, then flush whatever raw transitions
remain into the processed buffer with one final resequence_and_append. The
processed buffer is the list of emitted fixed-length sequences. -/
def make_demo_buffer (L : Nat) (pairs : List Pair) :
    List (List Transition) :=
  (demoBufferLoop L none [] pairs).1 ++
    resequence L (demoBufferLoop L none [] pairs).2

/-- splitAtTerminals cuts a transition list into maximal segments such that
every transition with done = true ends its segment; a trailing segment not
ended by a terminal transition is kept. -/
def splitAtTerminals : List Transition → List (List Transition)
  | [] => []
  | t :: ts =>
      if t.done then [t] :: splitAtTerminals ts
      else
        match splitAtTerminals ts with
        | [] => [[t]]
        | s :: ss => (t :: s) :: ss

/-! The record loop of load_demonstration. The loop walks a byte buffer with
an integer cursor: each iteration decodes a varint length prefix at the
cursor, then handles the record according to how many records were decoded
so far (metadata, then brain parameters, then step-action pairs). The byte
buffer itself and the protobuf payloads are opaque here: the stream is
represented by its length, by the varint decoder viewed as a function from a
position to the declared record length and the position after the prefix,
and by the number_steps value carried by the metadata record. The claims
settled against this model concern only the cursor discipline, loop
termination and the decoded pair count, none of which depend on the payload
bytes. -/

/-- DemoStream is the abstract view of one demonstration file. varint p
returns (declared record length, position right after the length prefix),
matching the pair returned by _DecodeVarint32(data, pos). -/
structure DemoStream where
  len : Nat
  varint : Nat → Nat × Nat
  metaSteps : Nat

/-- INITIAL_POS is the fixed absolute offset the cursor is forced to after
the metadata record (the first 32 bytes of the file are dedicated to
metadata). -/
def INITIAL_POS : Nat := 33

/-- LoadState is the loop state of load_demonstration: the byte cursor, the
number of records decoded so far (obs_decoded), the number of step-action
pairs collected so far (len(info_action_pairs), possibly carried over from
earlier files of a directory) and the accumulated declared total
(total_expected). -/
structure LoadState where
  pos : Nat
  obsDecoded : Nat
  count : Nat
  total : Nat
deriving DecidableEq, Repr

/-- loadBody is one iteration of the while loop of load_demonstration. It
returns the successor state and whether the loop breaks (the break fires
right after a pair is appended, when the pair count reaches the declared
total, before the cursor is advanced past the record). Record 0 is the
metadata record: its declared length is ignored for cursor advance and the
cursor is forced to INITIAL_POS. Record 1 is the brain-parameter record and
records 2.. are step-action pairs; for those the cursor advances to prefix
end plus declared length. -/
def loadBody (s : DemoStream) (st : LoadState) : LoadState × Bool :=
  let v := s.varint st.pos
  if st.obsDecoded = 0 then
    ({ pos := INITIAL_POS
       obsDecoded := 1
       count := st.count
       total := st.total + s.metaSteps }, false)
  else if st.obsDecoded = 1 then
    ({ st with pos := v.2 + v.1, obsDecoded := 2 }, false)
  else
    if st.count + 1 = st.total then
      ({ st with count := st.count + 1, obsDecoded := st.obsDecoded + 1 },
       true)
    else
      ({ st with
          pos := v.2 + v.1
          count := st.count + 1
          obsDecoded := st.obsDecoded + 1 }, false)

/-- loadLoop runs the while loop of load_demonstration on one file: the
loop continues while the cursor is below the end of the data and no break
fired. Fuel bounds the number of iterations; none signals fuel exhaustion
(never reached from the initial state with fuel = length, proved below). -/
def loadLoop (s : DemoStream) : Nat → LoadState → Option LoadState
  | 0, st => if s.len ≤ st.pos then some st else none
  | fuel + 1, st =>
      if s.len ≤ st.pos then some st
      else
        let r := loadBody s st
        if r.2 then some r.1 else loadLoop s fuel r.1

/-- load_demonstration_file runs the record loop of load_demonstration on
one file from the start of the data, with the pair count and declared total
carried over from the files already processed (both 0 for the first file). -/
def load_demonstration_file (s : DemoStream) (count0 total0 : Nat) :
    Option LoadState :=
  loadLoop s s.len { pos := 0, obsDecoded := 0, count := count0,
                     total := total0 }

/-! The SAC trainer (sac/trainer.py). The trainer state is reduced to the
step counter and the update buffer, the buffer being the list of stored
experiences with the most recent at the end; experiences themselves are
opaque tokens. Calls into the external optimizer are recorded as trace
events carrying the trainer data observable at call time. -/

/-- SACParams collects the trainer parameters the scheduling logic reads. -/
structure SACParams where
  batch_size : Nat
  buffer_size : Nat
  buffer_init_steps : Nat
  train_interval : Nat
  num_update : Nat
  reward_signal_updates_per_train : Nat
deriving DecidableEq, Repr

/-- SACState is the mutable trainer state the scheduling logic touches: the
step counter and the update buffer (most recent experience last). -/
structure SACState where
  step : Nat
  buffer : List Nat
deriving DecidableEq, Repr

/-- num_experiences of the update buffer: the common length of its fields. -/
def num_experiences (st : SACState) : Nat := st.buffer.length

/-- TraceEvent records one call into the external optimizer or one buffer
truncation, with the trainer data observable at the moment of the call. -/
inductive TraceEvent where
  | optimizerUpdate (numExp step : Nat)
  | rewardSignalUpdate (step : Nat)
  | truncation (target : Nat)
deriving DecidableEq, Repr

/-- isOpt discriminates optimizer policy-update events. -/
def TraceEvent.isOpt : TraceEvent → Bool
  | .optimizerUpdate _ _ => true
  | _ => false

/-- isRS discriminates optimizer reward-signal-update events. -/
def TraceEvent.isRS : TraceEvent → Bool
  | .rewardSignalUpdate _ => true
  | _ => false

/-- truncTarget embeds int(buffer_size * BUFFER_TRUNCATE_PERCENT) with
BUFFER_TRUNCATE_PERCENT = 0.8: the product is truncated toward zero, so on
naturals it is the floor of buffer_size * 4 / 5 (for example Python int(12
* 0.8) = int(9.600000000000001) = 9, and 12 * 4 / 5 = 9 here). -/
def truncTarget (buffer_size : Nat) : Nat := buffer_size * 4 / 5

/-- Modelled from the spec: AgentBuffer.truncate (buffer.py is not among
the given sources) drops the oldest experiences down to max_size, retaining
only the most recent entries. -/
def bufferTruncate (max_size : Nat) (buf : List Nat) : List Nat :=
  buf.drop (buf.length - max_size)

/-- update_sac_policy models the method of the same name: num_update inner
iterations each invoke the optimizer update on a sampled minibatch, but
only when the buffer holds at least batch_size experiences (sampling does
not change the buffer, so the condition and the observed values are the
same in every iteration); afterwards, when num_experiences exceeds
buffer_size, the buffer is truncated to truncTarget buffer_size. The result
is the successor state and the emitted trace. -/
def update_sac_policy (p : SACParams) (st : SACState) :
    SACState × List TraceEvent :=
  let calls := (List.range p.num_update).filterMap (fun _ =>
    if p.batch_size ≤ num_experiences st then
      some (TraceEvent.optimizerUpdate (num_experiences st) st.step)
    else none)
  if p.buffer_size < num_experiences st then
    ({ st with buffer := bufferTruncate (truncTarget p.buffer_size) st.buffer },
     calls ++ [TraceEvent.truncation (truncTarget p.buffer_size)])
  else (st, calls)

/-- update_reward_signals models the method of the same name: it runs
reward_signal_updates_per_train iterations, each sampling fresh minibatches
for the signals that need one and invoking the optimizer reward-signal
update entry point once. -/
def update_reward_signals (p : SACParams) (st : SACState) :
    List TraceEvent :=
  (List.range p.reward_signal_updates_per_train).map (fun _ =>
    TraceEvent.rewardSignalUpdate st.step)

/-- update_policy models _update_policy: when step % train_interval == 0 it
runs update_sac_policy and then update_reward_signals; otherwise it does
nothing. -/
def update_policy (p : SACParams) (st : SACState) :
    SACState × List TraceEvent :=
  if st.step % p.train_interval = 0 then
    let r := update_sac_policy p st
    (r.1, r.2 ++ update_reward_signals p r.1)
  else (st, [])

/-- is_ready_update models _is_ready_update: the trainer has enough
elements to update once the buffer holds at least batch_size experiences
and the step counter has reached buffer_init_steps. -/
def is_ready_update (p : SACParams) (st : SACState) : Bool :=
  p.batch_size ≤ num_experiences st && p.buffer_init_steps ≤ st.step

/-- Modelled from the spec: the per-step loop of the Update Scheduler
(RLTrainer.advance is not among the given sources). Per the spec, after
trajectory ingestion the update proceeds only when the gate holds, which is
exactly is_ready_update; advance is that gate applied to _update_policy. -/
def advance (p : SACParams) (st : SACState) : SACState × List TraceEvent :=
  if is_ready_update p st then update_policy p st else (st, [])

/-! The bootstrap rewrite of _process_trajectory and the replay-buffer load
of create_policy. -/

/-- TrajBuffer keeps the fields of the agent-buffer form of a trajectory
that the max-step bootstrap rewrite of _process_trajectory touches: the
done flags, the next visual observations (one time-indexed list per visual
channel) and the next vector observations (time-indexed). -/
structure TrajBuffer where
  done : List Bool
  nextVisualObs : List (List VObs)
  nextVectorIn : List (List Int)
deriving DecidableEq, Repr

/-- setLast replaces the last element of a list (python field[-1] = x); on
an empty list it is the identity. -/
def setLast (l : List α) (a : α) : List α :=
  if l.isEmpty then l else l.dropLast ++ [a]

/-- overwriteLastObs enumerates the visual observations of the last step
and overwrites, channel by channel, the final entry of the matching
next-visual-observation field. -/
def overwriteLastObs : List (List VObs) → List VObs → List (List VObs)
  | chans, [] => chans
  | [], _ :: _ => []
  | ch :: chans, o :: obs => setLast ch o :: overwriteLastObs chans obs

/-- process_trajectory_bootstrap models the bootstrap block of
_process_trajectory: when the last step carries the max-step flag, the
final next visual observation of every channel enumerated from the last
step is overwritten with the corresponding observation of the last step,
the final next vector observation is overwritten only when the vector
observation holds more than one element (the size > 1 guard), and the final
done flag is forced to False; without the max-step flag nothing changes. -/
def process_trajectory_bootstrap (last : AgentInfo) (buf : TrajBuffer) :
    TrajBuffer :=
  if last.maxStep then
    let b1 := { buf with
      nextVisualObs := overwriteLastObs buf.nextVisualObs last.visualObs }
    let b2 :=
      if 1 < last.vectorObs.length then
        { b1 with nextVectorIn := setLast b1.nextVectorIn last.vectorObs }
      else b1
    { b2 with done := setLast b2.done false }
  else buf

/-- PyError enumerates the Python exception classes relevant to the
replay-buffer load path. -/
inductive PyError where
  | attributeError
  | fileNotFoundError
  | osError
  | keyError
deriving DecidableEq, Repr

/-- caught_by_replay_load_handler reproduces the except clause around
load_replay_buffer in create_policy: exactly AttributeError and
FileNotFoundError are caught (and logged as a warning). -/
def caught_by_replay_load_handler : PyError → Bool
  | .attributeError => true
  | .fileNotFoundError => true
  | _ => false

/-- create_policy models the replay-buffer load portion of create_policy:
when both the load flag and the checkpoint_replay_buffer flag are set, the
replay buffer is loaded; the outcome of that load is an input here (none
for success, some e when load_replay_buffer raises e). A raised error is
swallowed when the except clause catches it, otherwise it propagates out of
create_policy. -/
def create_policy (load checkpoint_replay_buffer : Bool)
    (loadResult : Option PyError) : Except PyError Unit :=
  if load && checkpoint_replay_buffer then
    match loadResult with
    | none => Except.ok ()
    | some e =>
        if caught_by_replay_load_handler e then Except.ok ()
        else Except.error e
  else Except.ok ()

/-! Helper lemmas about the trainer traces. -/

/-- filterMap of a constant some over any list is a replicate. -/
theorem filterMap_const_some {α β : Type} (l : List α) (e : β) :
    l.filterMap (fun _ => some e) = List.replicate l.length e := by
  induction l with
  | nil => rfl
  | cons a l ih => simp [List.filterMap_cons, ih, List.replicate_succ]

/-- update_sac_policy emits the policy-update calls (all at the current
buffer size and step, and only when the buffer holds a full batch) followed
by the truncation event when the buffer exceeds its capacity. -/
theorem update_sac_policy_trace (p : SACParams) (st : SACState) :
    (update_sac_policy p st).2 =
      (if p.batch_size ≤ num_experiences st then
        List.replicate p.num_update
          (TraceEvent.optimizerUpdate (num_experiences st) st.step)
      else []) ++
      (if p.buffer_size < num_experiences st then
        [TraceEvent.truncation (truncTarget p.buffer_size)]
      else []) := by
  unfold update_sac_policy
  by_cases hb : p.batch_size ≤ num_experiences st <;>
    by_cases ht : p.buffer_size < num_experiences st <;>
      simp [hb, ht, filterMap_const_some, List.length_range]

/-- update_reward_signals emits exactly its per-iteration reward-signal
update calls. -/
theorem update_reward_signals_trace (p : SACParams) (st : SACState) :
    update_reward_signals p st =
      List.replicate p.reward_signal_updates_per_train
        (TraceEvent.rewardSignalUpdate st.step) := by
  unfold update_reward_signals
  simp [List.map_const', List.length_range]

/-- update_sac_policy does not change the step counter. -/
theorem update_sac_policy_step (p : SACParams) (st : SACState) :
    (update_sac_policy p st).1.step = st.step := by
  unfold update_sac_policy
  by_cases ht : p.buffer_size < num_experiences st <;> simp [ht]

/-- Membership of a policy-update event in the update_sac_policy trace
forces its data to be the current buffer size and step, with a full batch
available. -/
theorem mem_update_sac_policy_trace {p : SACParams} {st : SACState}
    {n s : Nat}
    (h : TraceEvent.optimizerUpdate n s ∈ (update_sac_policy p st).2) :
    n = num_experiences st ∧ s = st.step ∧
      p.batch_size ≤ num_experiences st := by
  rw [update_sac_policy_trace] at h
  by_cases hb : p.batch_size ≤ num_experiences st <;>
    by_cases ht : p.buffer_size < num_experiences st <;>
      simp [hb, ht] at h
  · exact ⟨h.2.1, h.2.2, hb⟩
  · exact ⟨h.2.1, h.2.2, hb⟩

/-! C1. -/

/-- C1: every invocation of the optimizer policy-update entry point emitted
by the scheduling loop happens in a state where the replay buffer holds at
least batch_size experiences and the step counter has reached
buffer_init_steps. -/
theorem sac_update_gate (p : SACParams) (st : SACState) (n s : Nat)
    (h : TraceEvent.optimizerUpdate n s ∈ (advance p st).2) :
    p.batch_size ≤ n ∧ p.buffer_init_steps ≤ s := by
  unfold advance at h
  by_cases hr : is_ready_update p st = true
  · rw [if_pos hr] at h
    unfold is_ready_update at hr
    simp only [Bool.and_eq_true, decide_eq_true_eq] at hr
    unfold update_policy at h
    by_cases hi : st.step % p.train_interval = 0
    · rw [if_pos hi] at h
      rcases List.mem_append.mp h with hm | hm
      · obtain ⟨hn, hs, -⟩ := mem_update_sac_policy_trace hm
        exact ⟨hn ▸ hr.1, hs ▸ hr.2⟩
      · rw [update_reward_signals_trace] at hm
        have := List.eq_of_mem_replicate hm
        exact absurd this (by simp)
    · rw [if_neg hi] at h
      simp at h
  · rw [if_neg hr] at h
    simp at h

/-- Witness for C1 at a concrete trainer state: with batch_size 1,
buffer_init_steps 0, one stored experience and step 0, the scheduler emits
a policy update and the gate holds there. -/
theorem sac_update_gate_witness :
    TraceEvent.optimizerUpdate 1 0 ∈
        (advance ⟨1, 100, 0, 1, 1, 1⟩ ⟨0, [7]⟩).2 ∧
      (⟨1, 100, 0, 1, 1, 1⟩ : SACParams).batch_size ≤ 1 ∧
      (⟨1, 100, 0, 1, 1, 1⟩ : SACParams).buffer_init_steps ≤ 0 :=
  ⟨by decide, sac_update_gate ⟨1, 100, 0, 1, 1, 1⟩ ⟨0, [7]⟩ 1 0 (by decide)⟩

/-! C9. -/

/-- C9: the reward-signal update shares the schedule of the policy update:
when step % train_interval is nonzero _update_policy emits nothing, and
when it is zero the trace places every policy-update call before every
reward-signal update call, with both present whenever their iteration
counts are positive (and, for the policy update, a full batch is stored). -/
theorem sac_reward_signal_schedule (p : SACParams) (st : SACState) :
    (st.step % p.train_interval ≠ 0 → (update_policy p st).2 = []) ∧
    (st.step % p.train_interval = 0 →
      (∀ i j, i < (update_policy p st).2.length →
        j < (update_policy p st).2.length →
        ((update_policy p st).2.getD i (TraceEvent.truncation 0)).isOpt
          = true →
        ((update_policy p st).2.getD j (TraceEvent.truncation 0)).isRS
          = true → i < j) ∧
      (1 ≤ p.num_update → p.batch_size ≤ num_experiences st →
        ∃ e ∈ (update_policy p st).2, e.isOpt = true) ∧
      (1 ≤ p.reward_signal_updates_per_train →
        ∃ e ∈ (update_policy p st).2, e.isRS = true)) := by
  constructor
  · intro hi
    unfold update_policy
    rw [if_neg hi]
  · intro hi
    have htr : (update_policy p st).2 =
        (update_sac_policy p st).2 ++
          update_reward_signals p (update_sac_policy p st).1 := by
      unfold update_policy
      rw [if_pos hi]
    have hsacRS : ∀ e ∈ (update_sac_policy p st).2, e.isRS = false := by
      intro e he
      rw [update_sac_policy_trace] at he
      rcases List.mem_append.mp he with hm | hm
      · by_cases hb : p.batch_size ≤ num_experiences st
        · rw [if_pos hb] at hm
          rw [List.eq_of_mem_replicate hm]
          rfl
        · rw [if_neg hb] at hm
          simp at hm
      · by_cases ht : p.buffer_size < num_experiences st
        · rw [if_pos ht] at hm
          rw [List.mem_singleton.mp hm]
          rfl
        · rw [if_neg ht] at hm
          simp at hm
    have hrsRS : ∀ e ∈ update_reward_signals p (update_sac_policy p st).1,
        e.isRS = true ∧ e.isOpt = false := by
      intro e he
      rw [update_reward_signals_trace] at he
      rw [List.eq_of_mem_replicate he]
      exact ⟨rfl, rfl⟩
    refine ⟨?_, ?_, ?_⟩
    · intro i j hil hjl hoi hrj
      rw [htr] at hil hjl hoi hrj
      have hjge : (update_sac_policy p st).2.length ≤ j := by
        by_contra hlt
        push_neg at hlt
        rw [List.getD_append _ _ _ _ hlt] at hrj
        rw [List.getD_eq_getElem _ _ hlt] at hrj
        exact absurd hrj (by simp [hsacRS _ (List.getElem_mem hlt)])
      have hile : i < (update_sac_policy p st).2.length := by
        by_contra hge
        push_neg at hge
        rw [List.getD_append_right _ _ _ _ hge] at hoi
        rw [List.length_append] at hil
        have hlt : i - (update_sac_policy p st).2.length <
            (update_reward_signals p (update_sac_policy p st).1).length := by
          omega
        rw [List.getD_eq_getElem _ _ hlt] at hoi
        have := (hrsRS _ (List.getElem_mem hlt)).2
        rw [hoi] at this
        exact absurd this (by simp)
      omega
    · intro hnu hb
      refine ⟨TraceEvent.optimizerUpdate (num_experiences st) st.step,
        ?_, rfl⟩
      rw [htr]
      refine List.mem_append_left _ ?_
      rw [update_sac_policy_trace]
      refine List.mem_append_left _ ?_
      rw [if_pos hb]
      exact List.mem_replicate.mpr ⟨by omega, rfl⟩
    · intro hru
      refine ⟨TraceEvent.rewardSignalUpdate (update_sac_policy p st).1.step,
        ?_, rfl⟩
      rw [htr]
      refine List.mem_append_right _ ?_
      rw [update_reward_signals_trace]
      exact List.mem_replicate.mpr ⟨by omega, rfl⟩

/-- Witness for C9 at concrete states: at step 3 with train_interval 2
nothing is emitted, and at step 4 a policy-update event and a later
reward-signal event are both emitted. -/
theorem sac_reward_signal_schedule_witness :
    ((3 : Nat) % (⟨2, 10, 0, 2, 1, 1⟩ : SACParams).train_interval ≠ 0 →
      (update_policy ⟨2, 10, 0, 2, 1, 1⟩ ⟨3, [1, 2]⟩).2 = []) ∧
    (update_policy ⟨2, 10, 0, 2, 1, 1⟩ ⟨3, [1, 2]⟩).2 = [] ∧
    (∃ e ∈ (update_policy ⟨2, 10, 0, 2, 1, 1⟩ ⟨4, [1, 2]⟩).2,
      e.isOpt = true) ∧
    (∃ e ∈ (update_policy ⟨2, 10, 0, 2, 1, 1⟩ ⟨4, [1, 2]⟩).2,
      e.isRS = true) :=
  ⟨(sac_reward_signal_schedule ⟨2, 10, 0, 2, 1, 1⟩ ⟨3, [1, 2]⟩).1,
   (sac_reward_signal_schedule ⟨2, 10, 0, 2, 1, 1⟩ ⟨3, [1, 2]⟩).1
     (by decide),
   ((sac_reward_signal_schedule ⟨2, 10, 0, 2, 1, 1⟩ ⟨4, [1, 2]⟩).2
     (by decide)).2.1 (by decide) (by decide),
   ((sac_reward_signal_schedule ⟨2, 10, 0, 2, 1, 1⟩ ⟨4, [1, 2]⟩).2
     (by decide)).2.2 (by decide)⟩

/-! C7. -/

/-- C7 counterexample: with buffer_size 12 the code passes int(12 * 0.8) =
9 as the truncation target, while round(12 * 0.8) = 10, so the claimed
target round(buffer_size * 0.8) is wrong. -/
theorem sac_truncation_round_counterexample :
    truncTarget 12 = 9 ∧ round ((12 : ℚ) * (4 / 5)) = 10 ∧ (9 : ℤ) ≠ 10 := by
  refine ⟨rfl, ?_, by decide⟩
  norm_num [round_eq]

/-- C7 amended: after the policy-update phase the buffer is truncated if
and only if num_experiences exceeds buffer_size, the target passed is
int(buffer_size * 0.8) (the product truncated toward zero, not rounded),
only the most recent experiences are retained, and a buffer within the cap
is left unchanged. -/
theorem sac_buffer_truncation (p : SACParams) (st : SACState) :
    (p.buffer_size < num_experiences st →
      (update_sac_policy p st).1.buffer =
          bufferTruncate (truncTarget p.buffer_size) st.buffer ∧
      TraceEvent.truncation (truncTarget p.buffer_size) ∈
          (update_sac_policy p st).2 ∧
      num_experiences (update_sac_policy p st).1 =
          truncTarget p.buffer_size ∧
      (update_sac_policy p st).1.buffer <:+ st.buffer) ∧
    (num_experiences st ≤ p.buffer_size →
      (update_sac_policy p st).1 = st ∧
      ∀ tgt, TraceEvent.truncation tgt ∉ (update_sac_policy p st).2) := by
  constructor
  · intro ht
    have hlt : ¬ num_experiences st ≤ p.buffer_size := by omega
    have hbuf : (update_sac_policy p st).1.buffer =
        bufferTruncate (truncTarget p.buffer_size) st.buffer := by
      unfold update_sac_policy
      rw [if_pos ht]
    refine ⟨hbuf, ?_, ?_, ?_⟩
    · rw [update_sac_policy_trace, if_pos ht]
      exact List.mem_append_right _ (List.mem_singleton.mpr rfl)
    · have htar : truncTarget p.buffer_size ≤ num_experiences st := by
        have : truncTarget p.buffer_size ≤ p.buffer_size := by
          unfold truncTarget
          omega
        omega
      unfold num_experiences at htar ⊢
      rw [hbuf]
      unfold bufferTruncate
      rw [List.length_drop]
      omega
    · rw [hbuf]
      exact List.drop_suffix _ _
  · intro hle
    have ht : ¬ p.buffer_size < num_experiences st := by omega
    constructor
    · unfold update_sac_policy
      rw [if_neg ht]
    · intro tgt hmem
      rw [update_sac_policy_trace, if_neg ht, List.append_nil] at hmem
      by_cases hb : p.batch_size ≤ num_experiences st
      · rw [if_pos hb] at hmem
        exact absurd (List.eq_of_mem_replicate hmem) (by simp)
      · rw [if_neg hb] at hmem
        simp at hmem

/-- Witness for C7 at concrete states: a buffer of 6 experiences with cap 4
is truncated to the 3 most recent, and a buffer of 2 with cap 4 is left
unchanged with no truncation event. -/
theorem sac_buffer_truncation_witness :
    (update_sac_policy ⟨2, 4, 0, 1, 1, 1⟩ ⟨0, [1, 2, 3, 4, 5, 6]⟩).1.buffer
        = [4, 5, 6] ∧
    (update_sac_policy ⟨2, 4, 0, 1, 1, 1⟩ ⟨0, [1, 2]⟩).1 =
        (⟨0, [1, 2]⟩ : SACState) := by
  have h1 := (sac_buffer_truncation ⟨2, 4, 0, 1, 1, 1⟩
    ⟨0, [1, 2, 3, 4, 5, 6]⟩).1 (by decide)
  have h2 := (sac_buffer_truncation ⟨2, 4, 0, 1, 1, 1⟩ ⟨0, [1, 2]⟩).2
    (by decide)
  exact ⟨by rw [h1.1]; decide, h2.1⟩

/-! C8. -/

/-- C8 counterexample: a replay-buffer load failing with OSError (as a
corrupt snapshot does) propagates out of create_policy instead of being
logged and swallowed. -/
theorem replay_load_failure_counterexample :
    create_policy true true (some PyError.osError) =
        Except.error PyError.osError ∧
    Except.error PyError.osError ≠ (Except.ok () : Except PyError Unit) :=
  ⟨rfl, by simp⟩

/-- C8 amended: a replay-buffer load failure is swallowed (after a logged
warning) exactly when it is an AttributeError or FileNotFoundError; a
successful load also proceeds, and any other load failure propagates out of
create_policy when the load path is active. -/
theorem create_policy_replay_load (load ckpt : Bool) (r : Option PyError) :
    (∀ e, r = some e → caught_by_replay_load_handler e = true →
      create_policy load ckpt r = Except.ok ()) ∧
    (r = none → create_policy load ckpt r = Except.ok ()) ∧
    (∀ e, r = some e → caught_by_replay_load_handler e = false →
      load = true → ckpt = true →
      create_policy load ckpt r = Except.error e) := by
  refine ⟨?_, ?_, ?_⟩
  · intro e hr hc
    subst hr
    by_cases hl : (load && ckpt) = true
    · simp [create_policy, hl, hc]
    · simp [create_policy, hl]
  · intro hr
    subst hr
    by_cases hl : (load && ckpt) = true
    · simp [create_policy, hl]
    · simp [create_policy, hl]
  · intro e hr hc hl hck
    subst hr hl hck
    simp [create_policy, hc]

/-- Witness for C8 at concrete inputs: a FileNotFoundError is swallowed, a
successful load proceeds, and a KeyError propagates. -/
theorem create_policy_replay_load_witness :
    create_policy true true (some PyError.fileNotFoundError) =
        Except.ok () ∧
    create_policy true true none = Except.ok () ∧
    create_policy true true (some PyError.keyError) =
        Except.error PyError.keyError :=
  ⟨(create_policy_replay_load true true
      (some PyError.fileNotFoundError)).1 _ rfl rfl,
   (create_policy_replay_load true true none).2.1 rfl,
   (create_policy_replay_load true true (some PyError.keyError)).2.2 _ rfl
     rfl rfl rfl⟩

/-! C4. -/

/-- Auxiliary description of overwriteLastObs at every channel index: the
channels enumerated from the last step get their final entry overwritten,
the remaining channels are untouched. -/
theorem getD_overwriteLastObs (chans : List (List VObs)) (obs : List VObs)
    (i : Nat) :
    (overwriteLastObs chans obs).getD i [] =
      if i < obs.length then
        setLast (chans.getD i []) (obs.getD i [])
      else chans.getD i [] := by
  induction obs generalizing chans i with
  | nil => simp [overwriteLastObs]
  | cons o obs ih =>
      cases chans with
      | nil =>
          simp [overwriteLastObs, setLast, List.getD_nil]
      | cons ch chans =>
          cases i with
          | zero => simp [overwriteLastObs, List.getD_cons_zero]
          | succ j =>
              simp only [overwriteLastObs, List.getD_cons_succ]
              rw [ih]
              simp [Nat.succ_lt_succ_iff]

/-- C4 counterexample: a truncated trajectory whose vector observation has
a single element keeps its recorded final next vector observation, so the
claim that every final next-observation field is overwritten fails; the
done flag is still forced to false there. -/
theorem bootstrap_vector_obs_counterexample :
    (process_trajectory_bootstrap
        { done := true, reward := 0, visualObs := [], vectorObs := [5],
          maxStep := true }
        { done := [true], nextVisualObs := [], nextVectorIn := [[7]] }
      ).nextVectorIn = [[7]] ∧
    ([[7]] : List (List Int)) ≠ [[5]] ∧
    (process_trajectory_bootstrap
        { done := true, reward := 0, visualObs := [], vectorObs := [5],
          maxStep := true }
        { done := [true], nextVisualObs := [], nextVectorIn := [[7]] }
      ).done = [false] := by
  refine ⟨rfl, by decide, rfl⟩

/-- Projection helper: under the max-step flag the bootstrap rewrite
replaces the next-visual-observation channels by overwriteLastObs,
whatever the vector-observation guard decides. -/
theorem bootstrap_nextVisualObs (last : AgentInfo) (buf : TrajBuffer)
    (hmax : last.maxStep = true) :
    (process_trajectory_bootstrap last buf).nextVisualObs =
      overwriteLastObs buf.nextVisualObs last.visualObs := by
  by_cases hv : 1 < last.vectorObs.length <;>
    simp [process_trajectory_bootstrap, hmax, hv]

/-- C4 amended: when the last step carries the max-step flag, processing
forces the final done entry to false, overwrites the final entry of every
next-visual-observation channel enumerated from the last step, and
overwrites the final next vector observation only when the vector
observation has more than one element (leaving it as recorded otherwise);
without the max-step flag the trajectory is unchanged, and demonstration
decoding replays the done flag as recorded with no rewriting. -/
theorem process_trajectory_bootstrap_spec (last : AgentInfo)
    (buf : TrajBuffer) :
    (last.maxStep = true →
      (process_trajectory_bootstrap last buf).done =
          setLast buf.done false ∧
      (∀ i, (process_trajectory_bootstrap last buf).nextVisualObs.getD i []
          = if i < last.visualObs.length then
              setLast (buf.nextVisualObs.getD i []) (last.visualObs.getD i [])
            else buf.nextVisualObs.getD i []) ∧
      (1 < last.vectorObs.length →
        (process_trajectory_bootstrap last buf).nextVectorIn =
          setLast buf.nextVectorIn last.vectorObs) ∧
      (¬ 1 < last.vectorObs.length →
        (process_trajectory_bootstrap last buf).nextVectorIn =
          buf.nextVectorIn)) ∧
    (last.maxStep = false → process_trajectory_bootstrap last buf = buf) ∧
    (∀ (prev? : Option Pair) (c n : Pair),
      (mkTransition prev? c n).done = n.agentInfo.done) := by
  refine ⟨?_, ?_, fun _ _ _ => rfl⟩
  · intro hmax
    by_cases hv : 1 < last.vectorObs.length
    · refine ⟨by simp [process_trajectory_bootstrap, hmax, hv], ?_, ?_, ?_⟩
      · intro i
        rw [bootstrap_nextVisualObs last buf hmax]
        exact getD_overwriteLastObs _ _ _
      · intro _
        simp [process_trajectory_bootstrap, hmax, hv]
      · intro h
        exact absurd hv h
    · refine ⟨by simp [process_trajectory_bootstrap, hmax, hv], ?_, ?_, ?_⟩
      · intro i
        rw [bootstrap_nextVisualObs last buf hmax]
        exact getD_overwriteLastObs _ _ _
      · intro h
        exact absurd h hv
      · intro _
        simp [process_trajectory_bootstrap, hmax, hv]
  · intro hmax
    simp [process_trajectory_bootstrap, hmax]

/-- Witness for C4 at a concrete truncated trajectory with one visual
channel and a two-element vector observation: the done flag is forced
false, the visual channel and the vector channel finals are overwritten. -/
theorem process_trajectory_bootstrap_witness :
    (process_trajectory_bootstrap
        { done := true, reward := 0, visualObs := [[9]], vectorObs := [5, 6],
          maxStep := true }
        { done := [false, true], nextVisualObs := [[[1], [2]]],
          nextVectorIn := [[1, 1], [2, 2]] }).done = [false, false] ∧
    (process_trajectory_bootstrap
        { done := true, reward := 0, visualObs := [[9]], vectorObs := [5, 6],
          maxStep := true }
        { done := [false, true], nextVisualObs := [[[1], [2]]],
          nextVectorIn := [[1, 1], [2, 2]] }).nextVisualObs.getD 0 []
      = [[1], [9]] ∧
    (process_trajectory_bootstrap
        { done := true, reward := 0, visualObs := [[9]], vectorObs := [5, 6],
          maxStep := true }
        { done := [false, true], nextVisualObs := [[[1], [2]]],
          nextVectorIn := [[1, 1], [2, 2]] }).nextVectorIn
      = [[1, 1], [5, 6]] := by
  have h := process_trajectory_bootstrap_spec
    { done := true, reward := 0, visualObs := [[9]], vectorObs := [5, 6],
      maxStep := true }
    { done := [false, true], nextVisualObs := [[[1], [2]]],
      nextVectorIn := [[1, 1], [2, 2]] }
  refine ⟨?_, ?_, ?_⟩
  · rw [(h.1 rfl).1]
    decide
  · rw [(h.1 rfl).2.1 0]
    decide
  · rw [(h.1 rfl).2.2.1 (by decide)]
    decide

/-! C5. -/

/-- C5: after the metadata record is parsed the loop body forces the read
cursor to the absolute offset INITIAL_POS = 33, whatever length the varint
prefix declared for the record (the stream, and with it the varint
decoder, is universally quantified here, so the resulting cursor never
depends on prefix end plus declared length). -/
theorem load_meta_cursor (s : DemoStream) (c t : Nat) :
    (loadBody s { pos := 0, obsDecoded := 0, count := c, total := t }).1.pos
        = 33 ∧
    INITIAL_POS = 33 :=
  ⟨rfl, rfl⟩

/-! C10. -/

/-- C10: with fewer than two step-action pairs the trajectory assembler
accumulates no transition and produces an empty processed buffer. -/
theorem make_demo_buffer_short_input (L : Nat) (pairs : List Pair)
    (h : pairs.length ≤ 1) :
    make_demo_buffer L pairs = [] ∧ demoTransitions pairs = [] := by
  match pairs, h with
  | [], _ => exact ⟨rfl, rfl⟩
  | [p], _ => exact ⟨rfl, rfl⟩

/-- Witness for C10 on the empty input and on a one-pair input. -/
theorem make_demo_buffer_short_input_witness :
    make_demo_buffer 4 [] = [] ∧
    make_demo_buffer 4
        [{ agentInfo := { done := false
                          reward := 1
                          visualObs := []
                          vectorObs := [2]
                          maxStep := false }
           vectorActions := [3] }]
      = [] :=
  ⟨(make_demo_buffer_short_input 4 [] (by decide)).1,
   (make_demo_buffer_short_input 4
      [{ agentInfo := { done := false
                        reward := 1
                        visualObs := []
                        vectorObs := [2]
                        maxStep := false }
         vectorActions := [3] }]
      (by decide)).1⟩

/-! C2. -/

/-- Length of the generated transition list: one per adjacent index. -/
theorem demoLoop_length (l : List Pair) :
    ∀ prev?, (demoLoop prev? l).length = l.length - 1 := by
  induction l with
  | nil => intro prev?; rfl
  | cons a l ih =>
      intro prev?
      cases l with
      | nil => rfl
      | cons b rest =>
          have := ih (some a)
          simp only [demoLoop, List.length_cons] at this ⊢
          omega

/-- Entry i of the generated transition list is built from the pairs at
i - 1 (as previous), i (as current) and i + 1 (as next). -/
theorem demoLoop_getD (l : List Pair) :
    ∀ (prev? : Option Pair) (i : Nat), i + 1 < l.length →
      (demoLoop prev? l).getD i default =
        mkTransition
          (if i = 0 then prev? else some (l.getD (i - 1) default))
          (l.getD i default) (l.getD (i + 1) default) := by
  induction l with
  | nil =>
      intro prev? i hi
      simp at hi
  | cons a l ih =>
      intro prev? i hi
      cases l with
      | nil =>
          simp at hi
      | cons b rest =>
          cases i with
          | zero =>
              simp [demoLoop, List.getD_cons_zero, List.getD_cons_succ]
          | succ j =>
              have hj : j + 1 < (b :: rest).length := by
                simp only [List.length_cons] at hi ⊢
                omega
              simp only [demoLoop, List.getD_cons_succ]
              rw [ih (some a) j hj]
              cases j with
              | zero => simp [List.getD_cons_zero, List.getD_cons_succ]
              | succ k => simp [List.getD_cons_succ]

/-- C2: from N step-action pairs (N ≥ 2) the assembler accumulates exactly
N - 1 raw transitions, and the transition at index i takes done and reward
from pair i + 1, observations and action from pair i, and as previous
action the action of pair i - 1 (a zero vector at i = 0). -/
theorem demo_transitions_fields (pairs : List Pair)
    (_h2 : 2 ≤ pairs.length) :
    (demoTransitions pairs).length = pairs.length - 1 ∧
    ∀ i, i + 1 < pairs.length →
      ((demoTransitions pairs).getD i default).done =
          (pairs.getD (i + 1) default).agentInfo.done ∧
      ((demoTransitions pairs).getD i default).reward =
          (pairs.getD (i + 1) default).agentInfo.reward ∧
      ((demoTransitions pairs).getD i default).visualObs =
          (pairs.getD i default).agentInfo.visualObs ∧
      ((demoTransitions pairs).getD i default).vectorObs =
          (pairs.getD i default).agentInfo.vectorObs ∧
      ((demoTransitions pairs).getD i default).actions =
          (pairs.getD i default).vectorActions ∧
      ((demoTransitions pairs).getD i default).prevAction =
          (if i = 0 then
            (pairs.getD 0 default).vectorActions.map (fun _ => (0 : Int))
          else (pairs.getD (i - 1) default).vectorActions) := by
  refine ⟨demoLoop_length pairs none, ?_⟩
  intro i hi
  rw [demoTransitions, demoLoop_getD pairs none i hi]
  cases i with
  | zero => exact ⟨rfl, rfl, rfl, rfl, rfl, rfl⟩
  | succ j =>
      refine ⟨rfl, rfl, rfl, rfl, rfl, ?_⟩
      simp [mkTransition]

/-- Witness for C2 on a concrete three-pair input: three pairs yield two
transitions, and both transitions carry the claimed fields. -/
theorem demo_transitions_fields_witness :
    (demoTransitions
        [{ agentInfo := { done := false
                          reward := 10
                          visualObs := [[1]]
                          vectorObs := [11]
                          maxStep := false }
           vectorActions := [1, 2] },
         { agentInfo := { done := false
                          reward := 20
                          visualObs := [[2]]
                          vectorObs := [22]
                          maxStep := false }
           vectorActions := [3, 4] },
         { agentInfo := { done := true
                          reward := 30
                          visualObs := [[3]]
                          vectorObs := [33]
                          maxStep := false }
           vectorActions := [5, 6] }]).length = 2 ∧
    ((demoTransitions
        [{ agentInfo := { done := false
                          reward := 10
                          visualObs := [[1]]
                          vectorObs := [11]
                          maxStep := false }
           vectorActions := [1, 2] },
         { agentInfo := { done := false
                          reward := 20
                          visualObs := [[2]]
                          vectorObs := [22]
                          maxStep := false }
           vectorActions := [3, 4] },
         { agentInfo := { done := true
                          reward := 30
                          visualObs := [[3]]
                          vectorObs := [33]
                          maxStep := false }
           vectorActions := [5, 6] }]).getD 1 default).prevAction
      = [1, 2] := by
  have h := demo_transitions_fields
    [{ agentInfo := { done := false
                      reward := 10
                      visualObs := [[1]]
                      vectorObs := [11]
                      maxStep := false }
       vectorActions := [1, 2] },
     { agentInfo := { done := false
                      reward := 20
                      visualObs := [[2]]
                      vectorObs := [22]
                      maxStep := false }
       vectorActions := [3, 4] },
     { agentInfo := { done := true
                      reward := 30
                      visualObs := [[3]]
                      vectorObs := [33]
                      maxStep := false }
       vectorActions := [5, 6] }] (by decide)
  refine ⟨by rw [h.1]; rfl, ?_⟩
  rw [(h.2 1 (by decide)).2.2.2.2.2]
  decide

/-! C3. -/

/-- Resequencing an empty raw buffer emits nothing. -/
theorem resequence_nil (L : Nat) : resequence L [] = [] := rfl

/-- A raw buffer holding no terminal transition forms a single trailing
segment (or none when empty). -/
theorem splitAtTerminals_all_false (raw : List Transition)
    (h : ∀ t ∈ raw, t.done = false) :
    splitAtTerminals raw = if raw = [] then [] else [raw] := by
  induction raw with
  | nil => rfl
  | cons a raw ih =>
      have ha : a.done = false := h a (List.mem_cons_self a raw)
      have hraw : ∀ t ∈ raw, t.done = false :=
        fun t ht => h t (List.mem_cons_of_mem a ht)
      simp only [splitAtTerminals, ha, Bool.false_eq_true, if_false,
        ih hraw]
      cases raw with
      | nil => simp
      | cons b raw => simp

/-- Appending a terminal transition after a terminal-free accumulator cuts
exactly there: the accumulator plus the terminal forms one segment and the
rest is split independently. -/
theorem splitAtTerminals_append_terminal (raw : List Transition)
    (t : Transition) (ts : List Transition)
    (h : ∀ u ∈ raw, u.done = false) (ht : t.done = true) :
    splitAtTerminals (raw ++ t :: ts) = (raw ++ [t]) :: splitAtTerminals ts := by
  induction raw with
  | nil => simp [splitAtTerminals, ht]
  | cons a raw ih =>
      have ha : a.done = false := h a (List.mem_cons_self a raw)
      have hraw : ∀ u ∈ raw, u.done = false :=
        fun u hu => h u (List.mem_cons_of_mem a hu)
      simp only [List.cons_append, splitAtTerminals, ha,
        Bool.false_eq_true, if_false, List.append_eq]
      rw [ih hraw]

/-- Main correspondence for the flush discipline of make_demo_buffer: the
sequences emitted inside the loop plus the final flush coincide with
resequencing each terminal-delimited segment of the generated transitions,
the pending accumulator included as the leading partial segment. -/
theorem demoBufferLoop_split (L : Nat) (l : List Pair) :
    ∀ (prev? : Option Pair) (raw : List Transition),
      (∀ t ∈ raw, t.done = false) →
      (demoBufferLoop L prev? raw l).1 ++
          resequence L (demoBufferLoop L prev? raw l).2 =
        ((splitAtTerminals (raw ++ demoLoop prev? l)).map
          (resequence L)).flatten := by
  induction l with
  | nil =>
      intro prev? raw h
      rw [splitAtTerminals_all_false (raw ++ demoLoop prev? [])
        (by simpa [demoLoop] using h)]
      cases hr : raw with
      | nil => simp [demoBufferLoop, demoLoop, resequence_nil]
      | cons a raw0 =>
          simp [demoBufferLoop, demoLoop, hr]
  | cons a l ih =>
      intro prev? raw h
      cases l with
      | nil =>
          rw [splitAtTerminals_all_false (raw ++ demoLoop prev? [a])
            (by simpa [demoLoop] using h)]
          cases hr : raw with
          | nil => simp [demoBufferLoop, demoLoop, resequence_nil]
          | cons c raw0 =>
              simp [demoBufferLoop, demoLoop, hr]
      | cons b rest =>
          by_cases hd : b.agentInfo.done = true
          · have htd : (mkTransition prev? a b).done = true := hd
            simp only [demoBufferLoop, hd, if_true, demoLoop]
            rw [splitAtTerminals_append_terminal raw
              (mkTransition prev? a b) (demoLoop (some a) (b :: rest)) h htd]
            have hih := ih (some a) [] (by intro t ht; simp at ht)
            simp only [List.nil_append] at hih
            simp only [List.map_cons, List.flatten_cons]
            rw [List.append_assoc, hih]
          · have hdf : b.agentInfo.done = false := by
              simpa using hd
            have htd : (mkTransition prev? a b).done = false := hdf
            simp only [demoBufferLoop, hdf, Bool.false_eq_true, if_false]
            have hraw : ∀ t ∈ raw ++ [mkTransition prev? a b],
                t.done = false := by
              intro t ht
              rcases List.mem_append.mp ht with hm | hm
              · exact h t hm
              · rw [List.mem_singleton.mp hm]
                exact htd
            have hih := ih (some a) (raw ++ [mkTransition prev? a b]) hraw
            rw [hih]
            simp [demoLoop, List.append_assoc]

/-- C3: the processed buffer produced by make_demo_buffer equals the
concatenation of the resequencings (at the target sequence length) of the
terminal-delimited segments of the accumulated transitions: the raw buffer
is flushed and reset at every mid-stream terminal step, and the trailing
segment left by a demonstration not closed by a terminal step is flushed
after the loop, so its transitions are still emitted. -/
theorem make_demo_buffer_flush (L : Nat) (pairs : List Pair) :
    make_demo_buffer L pairs =
      ((splitAtTerminals (demoTransitions pairs)).map
        (resequence L)).flatten := by
  have h := demoBufferLoop_split L pairs none [] (by intro t ht; simp at ht)
  simpa [make_demo_buffer, demoTransitions] using h

/-! C6. -/

/-- Invariant of the record loop: with a varint decoder that always
advances the cursor and a positive declared step count, the loop never
exhausts fuel equal to the remaining bytes, and it ends with the pair
count within the declared total, either because the data ran out or
because the count reached the total exactly. -/
theorem loadLoop_inv (s : DemoStream)
    (hv : ∀ q, q < s.len → q < (s.varint q).2) (hm : 1 ≤ s.metaSteps) :
    ∀ (fuel : Nat) (st : LoadState),
      s.len - st.pos ≤ fuel →
      (st.obsDecoded = 0 → st.pos = 0 ∧ st.count ≤ st.total) →
      (st.obsDecoded ≠ 0 → st.count < st.total) →
      ∃ f, loadLoop s fuel st = some f ∧ f.count ≤ f.total ∧
        (s.len ≤ f.pos ∨ f.count = f.total) := by
  intro fuel
  induction fuel with
  | zero =>
      intro st hfuel h0 h1
      have hle : s.len ≤ st.pos := by omega
      refine ⟨st, by simp [loadLoop, hle], ?_, Or.inl hle⟩
      by_cases h : st.obsDecoded = 0
      · exact (h0 h).2
      · exact Nat.le_of_lt (h1 h)
  | succ fuel ih =>
      intro st hfuel h0 h1
      by_cases hle : s.len ≤ st.pos
      · refine ⟨st, by simp [loadLoop, hle], ?_, Or.inl hle⟩
        by_cases h : st.obsDecoded = 0
        · exact (h0 h).2
        · exact Nat.le_of_lt (h1 h)
      · have hpos : st.pos < s.len := by omega
        by_cases hob0 : st.obsDecoded = 0
        · obtain ⟨hp0, hct⟩ := h0 hob0
          have hbody : loadBody s st =
              (⟨INITIAL_POS, 1, st.count, st.total + s.metaSteps⟩, false) := by
            simp [loadBody, hob0]
          have hstep : loadLoop s (fuel + 1) st =
              loadLoop s fuel ⟨INITIAL_POS, 1, st.count,
                st.total + s.metaSteps⟩ := by
            simp [loadLoop, hle, hbody]
          rw [hstep]
          refine ih _ ?_ ?_ ?_
          · show s.len - INITIAL_POS ≤ fuel
            unfold INITIAL_POS
            omega
          · intro h
            simp at h
          · intro _
            show st.count < st.total + s.metaSteps
            omega
        · by_cases hob1 : st.obsDecoded = 1
          · have hbody : loadBody s st =
                (⟨(s.varint st.pos).2 + (s.varint st.pos).1, 2, st.count,
                  st.total⟩, false) := by
              simp [loadBody, hob0, hob1]
            have hstep : loadLoop s (fuel + 1) st =
                loadLoop s fuel ⟨(s.varint st.pos).2 + (s.varint st.pos).1,
                  2, st.count, st.total⟩ := by
              simp [loadLoop, hle, hbody]
            rw [hstep]
            have hadv := hv st.pos hpos
            refine ih _ ?_ ?_ ?_
            · show s.len - ((s.varint st.pos).2 + (s.varint st.pos).1) ≤ fuel
              omega
            · intro h
              simp at h
            · intro _
              exact h1 hob0
          · have hcl : st.count < st.total := h1 hob0
            by_cases hbrk : st.count + 1 = st.total
            · have hbody : loadBody s st =
                  (⟨st.pos, st.obsDecoded + 1, st.count + 1, st.total⟩,
                   true) := by
                simp [loadBody, hob0, hob1, hbrk]
              have hstep : loadLoop s (fuel + 1) st =
                  some ⟨st.pos, st.obsDecoded + 1, st.count + 1,
                    st.total⟩ := by
                simp [loadLoop, hle, hbody]
              exact ⟨_, hstep, by simp; omega, Or.inr (by simp [hbrk])⟩
            · have hbody : loadBody s st =
                  (⟨(s.varint st.pos).2 + (s.varint st.pos).1,
                    st.obsDecoded + 1, st.count + 1, st.total⟩, false) := by
                simp [loadBody, hob0, hob1, hbrk]
              have hstep : loadLoop s (fuel + 1) st =
                  loadLoop s fuel ⟨(s.varint st.pos).2 + (s.varint st.pos).1,
                    st.obsDecoded + 1, st.count + 1, st.total⟩ := by
                simp [loadLoop, hle, hbody]
              rw [hstep]
              have hadv := hv st.pos hpos
              refine ih _ ?_ ?_ ?_
              · show s.len -
                    ((s.varint st.pos).2 + (s.varint st.pos).1) ≤ fuel
                omega
              · intro h
                simp at h
              · intro _
                show st.count + 1 < st.total
                omega

/-- C6: for a well-formed demonstration input (the varint decoder always
advances the cursor, the carried-over pair count is within the carried
total, and the metadata declares at least one step), the record loop of
load_demonstration terminates with fuel bounded by the byte length, the
final pair count never exceeds the accumulated declared total, and the
loop stopped either because the cursor reached the end of the data or
because the count reached the declared total exactly. -/
theorem load_demonstration_terminates (s : DemoStream)
    (hv : ∀ q, q < s.len → q < (s.varint q).2)
    (c t : Nat) (hct : c ≤ t) (hm : 1 ≤ s.metaSteps) :
    ∃ f, load_demonstration_file s c t = some f ∧ f.count ≤ f.total ∧
      (s.len ≤ f.pos ∨ f.count = f.total) := by
  refine loadLoop_inv s hv hm s.len ⟨0, 0, c, t⟩ (by omega) ?_ ?_
  · intro _
    exact ⟨rfl, hct⟩
  · intro h
    exact absurd rfl h

/-- Witness for C6 on a concrete stream: 40 bytes, every varint prefix one
byte long declaring one-byte records, one declared step; the loop breaks
exactly when the single declared pair has been decoded. -/
theorem load_demonstration_terminates_witness :
    ∃ f, load_demonstration_file ⟨40, fun p => (1, p + 1), 1⟩ 0 0 = some f ∧
      f.count ≤ f.total ∧
      ((⟨40, fun p => (1, p + 1), 1⟩ : DemoStream).len ≤ f.pos ∨
        f.count = f.total) :=
  load_demonstration_terminates ⟨40, fun p => (1, p + 1), 1⟩
    (fun q _ => Nat.lt_succ_self q) 0 0 (Nat.le_refl 0) (by decide)

end MLPenguins
